import Mathlib

set_option autoImplicit false

/-!
Verification development for the GitHub-scouting pipeline (`src/cloud.py`).

The Python source is shallowly embedded: pure helpers become Lean functions,
HTTP and Airtable I/O become explicit oracle parameters (`GitHubEnv`) plus an
event trace returned by each operation, and the regular expression of
`extract_email` is embedded by a small backtracking matcher specialised to the
constructs the pattern uses (word boundaries, character classes, greedy
counted repetition), with Python `re` semantics: leftmost start position wins,
and within one start position greedy quantifiers backtrack from the longest
candidate downwards.
-/

namespace Scout

/-! ### The regex engine fragment used by `extract_email`

The source pattern is `\b[A-Za-z0-9._%+-]+@[A-Za-z0-9.-]+\.[A-Z|a-z]{2,}\b`
(note: the final character class of the source literally contains `|`).
-/

/-- Python `\w` over the ASCII fragment: letters, digits, underscore. -/
def isWordChar (c : Char) : Bool := c.isAlpha || c.isDigit || c == '_'

/-- Character class `[A-Za-z0-9._%+-]` of the source pattern. -/
def localChar (c : Char) : Bool :=
  c.isAlpha || c.isDigit || c == '.' || c == '_' || c == '%' || c == '+' || c == '-'

/-- Character class `[A-Za-z0-9.-]` of the source pattern. -/
def domainChar (c : Char) : Bool := c.isAlpha || c.isDigit || c == '.' || c == '-'

/-- Character class `[A-Z|a-z]` of the source pattern: inside a character
class the `|` is a literal pipe character, so this class is letters plus `|`. -/
def tldCodeChar (c : Char) : Bool := c.isAlpha || c == '|'

/-- Whether position `i` of `s` holds a word character (out of range: no). -/
def charIsWordAt (s : List Char) (i : Nat) : Bool :=
  match s.get? i with
  | some c => isWordChar c
  | none => false

/-- Python `\b` at position `i`: exactly one of the two adjacent positions
holds a word character (positions outside the string count as non-word). -/
def wordBoundary (s : List Char) (i : Nat) : Bool :=
  (if i = 0 then false else charIsWordAt s (i - 1)) != charIsWordAt s i

/-- The regex constructs appearing in the source pattern: a word-boundary
assertion, a literal character, and a greedy counted repetition `p{m,}` of a
character class. -/
inductive RElem where
  | wb : RElem
  | chr : Char → RElem
  | cls : (Char → Bool) → Nat → RElem

/-- Length of the maximal run of characters satisfying `p` at the head. -/
def runLen (p : Char → Bool) : List Char → Nat
  | [] => 0
  | c :: cs => if p c then runLen p cs + 1 else 0

/-- Candidate end positions for a greedy `p{m,}` starting at `i` whose maximal
run has length `r`: `i+r, i+r-1, …, i+m` (longest first, as a greedy
backtracking engine tries them). -/
def greedyEnds (i r m : Nat) : List Nat :=
  (List.range (r + 1 - m)).map (fun t => i + r - t)

/-- First successful result of `f` over a list of candidates. -/
def firstSome {α : Type} (f : Nat → Option α) : List Nat → Option α
  | [] => none
  | x :: xs =>
    match f x with
    | some y => some y
    | none => firstSome f xs

/-- Match a sequence of pattern elements against `s` starting at position `i`,
returning the end position of the (Python-preferred) match: greedy counted
repetitions try their longest feasible count first and backtrack. -/
def matchElems (s : List Char) : List RElem → Nat → Option Nat
  | [], i => some i
  | RElem.wb :: rest, i => if wordBoundary s i then matchElems s rest i else none
  | RElem.chr c :: rest, i =>
    if s.get? i = some c then matchElems s rest (i + 1) else none
  | RElem.cls p m :: rest, i =>
    firstSome (fun j => matchElems s rest j) (greedyEnds i (runLen p (List.drop i s)) m)

/-- The source pattern `\b[A-Za-z0-9._%+-]+@[A-Za-z0-9.-]+\.[A-Z|a-z]{2,}\b`
as a sequence of elements. -/
def emailPattern : List RElem :=
  [RElem.wb, RElem.cls localChar 1, RElem.chr '@', RElem.cls domainChar 1,
   RElem.chr '.', RElem.cls tldCodeChar 2, RElem.wb]

/-- Scan start positions `i, i+1, …` (Python `re` tries each start position in
order, up to and including the end-of-string position); return `(start, end)`
of the first position where the pattern matches.  `fuel` counts the start
positions still to try (structural recursion so the function evaluates). -/
def scanAux (s : List Char) : Nat → Nat → Option (Nat × Nat)
  | 0, _ => none
  | fuel + 1, i =>
    match matchElems s emailPattern i with
    | some j => some (i, j)
    | none => scanAux s fuel (i + 1)

/-- Leftmost match of the email pattern in `s`, scanning from position `i`. -/
def scanFrom (s : List Char) (i : Nat) : Option (Nat × Nat) :=
  scanAux s (s.length + 1 - i) i

/-- The sub-list of `s` from position `i` (inclusive) to `j` (exclusive). -/
def slice (s : List Char) (i j : Nat) : List Char := List.take (j - i) (List.drop i s)

/-- Head of Python `re.findall(pattern, s)`: the leftmost match, if any. -/
def findall_head (s : List Char) : Option (List Char) :=
  match scanFrom s 0 with
  | some p => some (slice s p.1 p.2)
  | none => none

/-- The character set of the source's `.strip('\x22<>[]()')` call. -/
def isStripChar (c : Char) : Bool :=
  c == '"' || c == '<' || c == '>' || c == '[' || c == ']' || c == '(' || c == ')'

/-- Python `str.strip(chars)`: remove characters of the set from both ends. -/
def pyStrip (l : List Char) : List Char :=
  ((l.dropWhile isStripChar).reverse.dropWhile isStripChar).reverse

/-- Function `extract_email` from `src/cloud.py`: first regex match of the email
pattern, with surrounding quote/bracket characters stripped; `none` ("no
match") when the pattern matches nowhere. -/
def extract_email (text : String) : Option String :=
  match findall_head text.data with
  | some m => some (String.mk (pyStrip m))
  | none => none

/-! ### The spec's canonical email shape

These definitions follow the specification's words, for comparison with the
code's pattern: "one or more of letters/digits/`._%+-` characters, an `@`, a
domain of letters/digits/`.`/`-`, a dot, and a 2+ letter top-level segment".
They are the spec-side half of the comparison, not a transcription of the
source. -/

/-- The spec's top-level segment: letters only (no `|`). -/
def tldSpecChar (c : Char) : Bool := c.isAlpha

/-- The spec's canonical email shape as pattern elements (no word-boundary
requirement appears in the spec's description of the shape). -/
def specEmailShape : List RElem :=
  [RElem.cls localChar 1, RElem.chr '@', RElem.cls domainChar 1,
   RElem.chr '.', RElem.cls tldSpecChar 2]

/-- Whether some substring of `s` has the spec's canonical email shape.
`matchElems` tries every feasible repetition count, so this is exactly
"some decomposition exists at some start position". -/
def specContainsEmailShape (s : List Char) : Bool :=
  (List.range (s.length + 1)).any (fun i => (matchElems s specEmailShape i).isSome)

/-- The spec's canonical email shape, additionally delimited by word
boundaries on both sides. -/
def specBoundedEmail : List RElem :=
  [RElem.wb, RElem.cls localChar 1, RElem.chr '@', RElem.cls domainChar 1,
   RElem.chr '.', RElem.cls tldSpecChar 2, RElem.wb]

/-- Whether `s` contains a canonical email substring delimited by word
boundaries. -/
def specContainsBoundedEmail (s : List Char) : Bool :=
  (List.range (s.length + 1)).any (fun i => (matchElems s specBoundedEmail i).isSome)

/-- The shape shared by the code's pattern and the spec's bounded shape:
`\b local+ @ domain+ . q{2,} \b`, with the top-level segment class `q` as a
parameter (`tldCodeChar` gives the code's pattern, `tldSpecChar` the spec's). -/
def emailLike (q : Char → Bool) : List RElem :=
  [RElem.wb, RElem.cls localChar 1, RElem.chr '@', RElem.cls domainChar 1,
   RElem.chr '.', RElem.cls q 2, RElem.wb]

/-- An explicit decomposition witnessing that the `emailLike q` pattern can
match `s` on `[i, j)`: a non-empty local part, an `@`, a non-empty domain
part, a dot, at least two characters of the class `q`, and word boundaries at
both ends. -/
def EmailStructure (q : Char → Bool) (s : List Char) (i j : Nat) : Prop :=
  wordBoundary s i = true ∧ wordBoundary s j = true ∧
  ∃ a k c, 1 ≤ a ∧ 1 ≤ k ∧ 2 ≤ c ∧
    (∀ t, t < a → ∃ ch, s.get? (i + t) = some ch ∧ localChar ch = true) ∧
    s.get? (i + a) = some '@' ∧
    (∀ t, t < k → ∃ ch, s.get? (i + a + 1 + t) = some ch ∧ domainChar ch = true) ∧
    s.get? (i + a + 1 + k) = some '.' ∧
    (∀ t, t < c → ∃ ch, s.get? (i + a + 1 + k + 1 + t) = some ch ∧ q ch = true) ∧
    j = i + a + 1 + k + 1 + c

/-! ### The retrying HTTP client and the per-call-site client choice

`requests_retry_session` builds a session whose adapter retries on the listed
status codes with exponential backoff.  The backoff factor `0.3` is a float in
the source; it is recorded here in tenths to stay within exact arithmetic.
Each outbound call site of the source either goes through such a session
(`requests_retry_session().get(...)`) or uses the plain module-level
`requests.get/patch/post` with no retry; the call-site table below transcribes
which is which, line by line. -/

structure RetryPolicy where
  total : Nat
  read : Nat
  connect : Nat
  backoff_factor_tenths : Nat
  status_forcelist : List Nat
deriving DecidableEq

/-- Function `requests_retry_session` from `src/cloud.py` with its default arguments
(`retries=3, backoff_factor=0.3, status_forcelist=(500, 502, 504)`), viewed as
the retry policy it installs on the session. -/
def requests_retry_session (retries : Nat := 3)
    (backoff_factor_tenths : Nat := 3)
    (status_forcelist : List Nat := [500, 502, 504]) : RetryPolicy :=
  { total := retries
    read := retries
    connect := retries
    backoff_factor_tenths := backoff_factor_tenths
    status_forcelist := status_forcelist }

/-- How an outbound HTTP call is issued: through a retrying session, or as a
single plain request. -/
inductive HttpClientKind where
  | retrying : RetryPolicy → HttpClientKind
  | plain : HttpClientKind
deriving DecidableEq

def HttpClientKind.usesBoundedRetry : HttpClientKind → Bool
  | .retrying _ => true
  | .plain => false

/-- Line 48: `requests_retry_session().get(url, headers=headers)` for the
GitHub rate-limit query. -/
def rateLimitFetchClient : HttpClientKind := .retrying (requests_retry_session)

/-- Line 64: `requests_retry_session().get(url, headers=headers)` for the
GitHub user-profile fetch. -/
def profileFetchClient : HttpClientKind := .retrying (requests_retry_session)

/-- Line 73: `requests.get(url, headers=headers)` for the raw README fetch —
the plain module-level client, no retrying session. -/
def readmeFetchClient : HttpClientKind := .plain

/-- Line 83: `requests.get(url, headers=headers)` in `get_airtable_records`. -/
def airtableGetClient : HttpClientKind := .plain

/-- Line 97: `requests.patch(url, headers=headers, json=data)` in
`update_airtable_records`. -/
def airtablePatchClient : HttpClientKind := .plain

/-- Line 111: `requests.post(url, headers=headers, json=data)` in
`create_airtable_records`. -/
def airtableCreateClient : HttpClientKind := .plain

/-- Every outbound HTTP call site of the system, in source order. -/
def outboundCallClients : List HttpClientKind :=
  [rateLimitFetchClient, profileFetchClient, readmeFetchClient,
   airtableGetClient, airtablePatchClient, airtableCreateClient]

/-! ### The GitHub API key rotator and lookup service

HTTP responses are supplied by a `GitHubEnv` oracle; each operation returns
its result together with the list of URLs it fetched (its I/O trace) and the
updated handler state. -/

/-- Responses the outside world gives to the three GitHub fetches.
`none` models a non-200 response throughout; for the profile fetch,
`some emailField` models a 200 response whose `email` field is `emailField`
(the empty string standing for an absent or null field, which is falsy in the
source exactly like `''`). -/
structure GitHubEnv where
  rateRemaining : Option Nat
  profileResp : Option String
  readmeResp : Option String

/-- Mutable state of `GitHubApiHandler` in `src/cloud.py`. -/
structure GitHubApiHandler where
  api_keys : List String
  current_key_index : Nat
  request_count : Nat
deriving DecidableEq

/-- Field `max_requests_per_key = 3650` (informational only in the source). -/
def max_requests_per_key : Nat := 3650

/-- Method `get_headers`: authorization header from the active credential. -/
def get_headers (h : GitHubApiHandler) : List (String × String) :=
  [("Authorization", "token " ++ h.api_keys.getD h.current_key_index "")]

def rate_limit_url : String := "https://api.github.com/rate_limit"

def user_url (username : String) : String :=
  "https://api.github.com/users/" ++ username

def readme_url (username : String) : String :=
  "https://raw.githubusercontent.com/" ++ username ++ "/" ++ username ++ "/main/README.md"

/-- Method `get_remaining_requests`: the `rate.remaining` field of a 200 response to
the rate-limit query, and `0` for any non-200 response. -/
def get_remaining_requests (env : GitHubEnv) : Nat :=
  match env.rateRemaining with
  | some remaining => remaining
  | none => 0

/-- Method `check_and_switch_key`: query the remaining quota; if it is below 10,
advance the active key index by one (wrapping) and reset the counter. -/
def check_and_switch_key (h : GitHubApiHandler) (env : GitHubEnv) : GitHubApiHandler :=
  let remaining_requests := get_remaining_requests env
  if remaining_requests < 10 then
    { h with
      current_key_index := (h.current_key_index + 1) % h.api_keys.length
      request_count := 0 }
  else h

/-- Python `str.split(sep)` for one-character separators: split on every
occurrence, keeping empty pieces; the result is never the empty list. -/
def pySplit (sep : Char) : List Char → List (List Char)
  | [] => [[]]
  | c :: cs =>
    match pySplit sep cs with
    | p :: ps => if c = sep then [] :: p :: ps else (c :: p) :: ps
    | [] => if c = sep then [[], []] else [[c]]

/-- Username normalization inside `get_user_info_from_github_api`: a string
starting with `https://github.com/` is split on `/` and the last piece taken
(Python `username_or_url.split('/')[-1]`); anything else is used verbatim. -/
def github_username (username_or_url : String) : String :=
  if ("https://github.com/".data).isPrefixOf username_or_url.data then
    String.mk (((pySplit '/' username_or_url.data).getLast?).getD [])
  else username_or_url

/-- Method `get_email_from_readme`: fetch the conventional README URL (the sole URL
in its trace); extract an email from the body of a 200 response, `none` for a
non-200 response. -/
def get_email_from_readme (username : String) (env : GitHubEnv) :
    Option String × List String :=
  (match env.readmeResp with
   | some body => extract_email body
   | none => none,
   [readme_url username])

/-- Method `get_user_info_from_github_api`: rotate keys if low on quota (which
queries the rate-limit endpoint), bump the request counter, normalize the
username, fetch the profile; on non-200 return `None`; otherwise return the
profile's email field if truthy, else fall back to the README scrape.
Returns (result, fetched URLs in order, updated handler). -/
def get_user_info_from_github_api (h : GitHubApiHandler) (env : GitHubEnv)
    (username_or_url : String) : Option String × List String × GitHubApiHandler :=
  let h1 := check_and_switch_key h env
  let h2 := { h1 with request_count := h1.request_count + 1 }
  let username := github_username username_or_url
  match env.profileResp with
  | none => (none, [rate_limit_url, user_url username], h2)
  | some emailField =>
    if emailField ≠ "" then
      (some emailField, [rate_limit_url, user_url username], h2)
    else
      let readme := get_email_from_readme username env
      (readme.1, [rate_limit_url, user_url username] ++ readme.2, h2)

/-! ### Airtable records and the per-record workflow -/

/-- An Airtable record: its opaque id and its `fields` object, modelled as an
association list of field name to value. -/
structure AirtableRecord where
  id : String
  fields : List (String × String)
deriving DecidableEq

/-- Python `fields.get(key, '')`. -/
def getField (fields : List (String × String)) (key : String) : String :=
  match fields.lookup key with
  | some v => v
  | none => ""

/-- The observable side effects of the workflow: a PATCH of records in a
table, a POST creating records in a table, or an HTTP GET of a URL. -/
inductive AirtableEvent where
  | patchEvent : String → List (String × List (String × String)) → AirtableEvent
  | createEvent : String → List (List (String × String)) → AirtableEvent
  | fetchEvent : String → AirtableEvent
deriving DecidableEq

def AirtableEvent.isPatch : AirtableEvent → Bool
  | .patchEvent _ _ => true
  | _ => false

def AirtableEvent.isCreate : AirtableEvent → Bool
  | .createEvent _ _ => true
  | _ => false

/-- Python truthiness of the lookup result (`None` and `''` are falsy). -/
def pyTruthy : Option String → Bool
  | some s => !(s == "")
  | none => false

/-- Function `process_record` from `src/cloud.py`, as the event trace it produces (in
program order) together with the updated handler state.  An ineligible record
(empty GitHub field or status other than `Run`) produces no events at all. -/
def process_record (h : GitHubApiHandler) (env : GitHubEnv) (record : AirtableRecord)
    (source_table_name target_table_name : String) :
    GitHubApiHandler × List AirtableEvent :=
  let fields := record.fields
  let github_url := getField fields "GitHub"
  let status := getField fields "Status"
  if github_url ≠ "" ∧ status = "Run" then
    let lookup := get_user_info_from_github_api h env github_url
    let email := lookup.1
    (lookup.2.2,
      AirtableEvent.patchEvent source_table_name
          [(record.id, [("Status", "Running")])]
        :: lookup.2.1.map AirtableEvent.fetchEvent
        ++ [AirtableEvent.patchEvent source_table_name
              [(record.id,
                [("Scouted Email", if pyTruthy email then email.getD "" else ""),
                 ("Status", "Done")])]]
        ++ (if pyTruthy email then
              [AirtableEvent.createEvent target_table_name
                [[("Name", getField fields "Name"),
                  ("Github", github_url),
                  ("Scouted Email", email.getD ""),
                  ("Repo to link", getField fields "Repo to Link"),
                  ("Check External Hacker Github", "Update (Github Repo)")]]]
            else []))
  else (h, [])

/-! ### Helper lemmas -/

/-! Sanity checks of the embedded matcher against the observed behaviour of
Python `re.findall` on the source pattern. -/

example : extract_email "hello world" = none := by decide
example : extract_email "x@y.com" = some "x@y.com" := by decide
example : extract_email "Contact: <jane@example.com>" = some "jane@example.com" := by decide
example : extract_email "first@x.co second@y.org" = some "first@x.co" := by decide
example : extract_email "a@b.|x" = some "a@b.|x" := by decide
example : extract_email "a@b.cd5" = none := by decide
example : extract_email "a@b.cde5" = none := by decide
example : extract_email "ab@cd.ef.g7" = some "ab@cd.ef" := by decide
example : extract_email "a@b.cd.ef" = some "a@b.cd.ef" := by decide
example : extract_email "a@b.cd@e.fg" = some "a@b.cd" := by decide
example : extract_email "a@-.-cd" = none := by decide
example : extract_email "a@b..cd" = some "a@b..cd" := by decide
example : extract_email "_a@b.cd" = some "_a@b.cd" := by decide
example : extract_email "a@b.cd_" = none := by decide
example : extract_email "a@b.|x c@d.ef" = some "a@b.|x" := by decide
example : extract_email "aa@@bb..cc" = none := by decide
example : extract_email "A@B.CD" = some "A@B.CD" := by decide
example : specContainsEmailShape ("a@b.|x".data) = false := by decide
example : specContainsBoundedEmail ("x@y.com".data) = true := by decide
example : specContainsBoundedEmail ("a@b.cd5".data) = false := by decide
example : specContainsEmailShape ("a@b.cd5".data) = true := by decide

theorem emailPattern_eq_emailLike : emailPattern = emailLike tldCodeChar := rfl

theorem specBoundedEmail_eq_emailLike : specBoundedEmail = emailLike tldSpecChar := rfl

theorem exists_of_firstSome_eq_some {α : Type} {f : Nat → Option α} {y : α} :
    ∀ {l : List Nat}, firstSome f l = some y → ∃ x ∈ l, f x = some y := by
  intro l
  induction l with
  | nil => intro hl; simp [firstSome] at hl
  | cons x xs ih =>
    intro hl
    rw [firstSome] at hl
    cases hfx : f x with
    | some z =>
      rw [hfx] at hl
      exact ⟨x, List.mem_cons_self x xs, by rw [hfx]; exact hl⟩
    | none =>
      rw [hfx] at hl
      obtain ⟨x1, hx1, hfx1⟩ := ih hl
      exact ⟨x1, List.mem_cons_of_mem x hx1, hfx1⟩

theorem firstSome_isSome_of_mem {α : Type} {f : Nat → Option α} :
    ∀ {l : List Nat} {x : Nat}, x ∈ l → (f x).isSome = true →
      (firstSome f l).isSome = true := by
  intro l
  induction l with
  | nil => intro x hx _; cases hx
  | cons z zs ih =>
    intro x hx hfx
    rw [firstSome]
    cases hfz : f z with
    | some y => simp
    | none =>
      rcases List.mem_cons.mp hx with rfl | hmem
      · rw [hfz] at hfx; simp at hfx
      · exact ih hmem hfx

theorem mem_greedyEnds_iff {i r m j : Nat} :
    j ∈ greedyEnds i r m ↔ ∃ k, m ≤ k ∧ k ≤ r ∧ j = i + k := by
  simp only [greedyEnds, List.mem_map, List.mem_range]
  constructor
  · rintro ⟨t, ht, rfl⟩
    exact ⟨r - t, by omega, by omega, by omega⟩
  · rintro ⟨k, hmk, hkr, rfl⟩
    exact ⟨r - k, by omega, by omega⟩

theorem le_runLen_of_forall {p : Char → Bool} :
    ∀ {l : List Char} {a : Nat},
      (∀ t, t < a → ∃ c, l.get? t = some c ∧ p c = true) → a ≤ runLen p l := by
  intro l
  induction l with
  | nil =>
    intro a hc
    cases a with
    | zero => simp
    | succ n =>
      obtain ⟨c, hc0, _⟩ := hc 0 (by omega)
      simp at hc0
  | cons x xs ih =>
    intro a hc
    cases a with
    | zero => simp
    | succ n =>
      obtain ⟨c, hc0, hpc⟩ := hc 0 (by omega)
      have hx : x = c := by simpa using hc0
      rw [runLen, if_pos (hx ▸ hpc)]
      have hrest : ∀ t, t < n → ∃ c2, xs.get? t = some c2 ∧ p c2 = true := by
        intro t ht
        obtain ⟨c2, hg, hp2⟩ := hc (t + 1) (by omega)
        exact ⟨c2, by simpa using hg, hp2⟩
      have hn : n ≤ runLen p xs := ih hrest
      omega

theorem forall_lt_runLen {p : Char → Bool} :
    ∀ {l : List Char} {t : Nat}, t < runLen p l →
      ∃ c, l.get? t = some c ∧ p c = true := by
  intro l
  induction l with
  | nil => intro t ht; simp [runLen] at ht
  | cons x xs ih =>
    intro t ht
    rw [runLen] at ht
    by_cases hp : p x = true
    · rw [if_pos hp] at ht
      cases t with
      | zero => exact ⟨x, rfl, hp⟩
      | succ n =>
        obtain ⟨c, h1, h2⟩ := ih (show n < runLen p xs by omega)
        exact ⟨c, by simpa using h1, h2⟩
    · rw [if_neg hp] at ht
      omega

theorem get?_drop_eq (s : List Char) (i t : Nat) :
    (List.drop i s).get? t = s.get? (i + t) := by
  rw [List.get?_eq_getElem?, List.get?_eq_getElem?, List.getElem?_drop]

/-- Completeness of the matcher: any decomposition of the `emailLike q` shape
at `i` makes `matchElems` succeed at `i` (the greedy engine tries every
feasible repetition count, so it cannot miss a decomposition). -/
theorem matchElems_emailLike_isSome {q : Char → Bool} {s : List Char} {i j : Nat}
    (hd : EmailStructure q s i j) :
    (matchElems s (emailLike q) i).isSome = true := by
  obtain ⟨hwbi, hwbj, a, k, c, ha, hk, hc, hloc, hat, hdom, hdot, htld, hj⟩ := hd
  have hloc2 : a ≤ runLen localChar (List.drop i s) :=
    le_runLen_of_forall (fun t ht => by rw [get?_drop_eq]; exact hloc t ht)
  have hdom2 : k ≤ runLen domainChar (List.drop (i + a + 1) s) :=
    le_runLen_of_forall (fun t ht => by rw [get?_drop_eq]; exact hdom t ht)
  have htld2 : c ≤ runLen q (List.drop (i + a + 1 + k + 1) s) :=
    le_runLen_of_forall (fun t ht => by rw [get?_drop_eq]; exact htld t ht)
  rw [emailLike, matchElems, if_pos hwbi, matchElems]
  apply firstSome_isSome_of_mem (mem_greedyEnds_iff.mpr ⟨a, ha, hloc2, rfl⟩)
  rw [matchElems, if_pos hat, matchElems]
  apply firstSome_isSome_of_mem (mem_greedyEnds_iff.mpr ⟨k, hk, hdom2, rfl⟩)
  rw [matchElems, if_pos hdot, matchElems]
  apply firstSome_isSome_of_mem (mem_greedyEnds_iff.mpr ⟨c, hc, htld2, rfl⟩)
  rw [matchElems, if_pos (hj ▸ hwbj), matchElems]
  rfl

/-- Soundness of the matcher: a successful match of `emailLike q` yields an
explicit decomposition. -/
theorem emailStructure_of_matchElems {q : Char → Bool} {s : List Char} {i j : Nat}
    (hm : matchElems s (emailLike q) i = some j) : EmailStructure q s i j := by
  rw [emailLike, matchElems] at hm
  by_cases hwb : wordBoundary s i = true
  case neg => rw [if_neg hwb] at hm; cases hm
  rw [if_pos hwb, matchElems] at hm
  obtain ⟨x1, hx1, hm1⟩ := exists_of_firstSome_eq_some hm
  obtain ⟨a, ha1, ha2, rfl⟩ := mem_greedyEnds_iff.mp hx1
  rw [matchElems] at hm1
  by_cases hat : s.get? (i + a) = some '@'
  case neg => rw [if_neg hat] at hm1; cases hm1
  rw [if_pos hat, matchElems] at hm1
  obtain ⟨x2, hx2, hm2⟩ := exists_of_firstSome_eq_some hm1
  obtain ⟨k, hk1, hk2, rfl⟩ := mem_greedyEnds_iff.mp hx2
  rw [matchElems] at hm2
  by_cases hdot : s.get? (i + a + 1 + k) = some '.'
  case neg => rw [if_neg hdot] at hm2; cases hm2
  rw [if_pos hdot, matchElems] at hm2
  obtain ⟨x3, hx3, hm3⟩ := exists_of_firstSome_eq_some hm2
  obtain ⟨c, hc1, hc2, rfl⟩ := mem_greedyEnds_iff.mp hx3
  rw [matchElems] at hm3
  by_cases hwb2 : wordBoundary s (i + a + 1 + k + 1 + c) = true
  case neg => rw [if_neg hwb2] at hm3; cases hm3
  rw [if_pos hwb2, matchElems] at hm3
  have hj : j = i + a + 1 + k + 1 + c := (Option.some.inj hm3).symm
  refine ⟨hwb, hj.symm ▸ hwb2, a, k, c, ha1, hk1, hc1, ?_, hat, ?_, hdot, ?_, hj⟩
  · intro t ht
    obtain ⟨ch, h1, h2⟩ := forall_lt_runLen (Nat.lt_of_lt_of_le ht ha2)
    rw [get?_drop_eq] at h1
    exact ⟨ch, h1, h2⟩
  · intro t ht
    obtain ⟨ch, h1, h2⟩ := forall_lt_runLen (Nat.lt_of_lt_of_le ht hk2)
    rw [get?_drop_eq] at h1
    exact ⟨ch, h1, h2⟩
  · intro t ht
    obtain ⟨ch, h1, h2⟩ := forall_lt_runLen (Nat.lt_of_lt_of_le ht hc2)
    rw [get?_drop_eq] at h1
    exact ⟨ch, h1, h2⟩

/-- The spec's letters-only top-level segment is accepted by the code's
`[A-Z|a-z]` class, so a spec-shaped decomposition is also a code-shaped one. -/
theorem emailStructure_mono {s : List Char} {i j : Nat}
    (hd : EmailStructure tldSpecChar s i j) : EmailStructure tldCodeChar s i j := by
  obtain ⟨h1, h2, a, k, c, ha, hk, hc, hloc, hat, hdom, hdot, htld, hj⟩ := hd
  refine ⟨h1, h2, a, k, c, ha, hk, hc, hloc, hat, hdom, hdot, ?_, hj⟩
  intro t ht
  obtain ⟨ch, hg, hp⟩ := htld t ht
  refine ⟨ch, hg, ?_⟩
  simp only [tldSpecChar] at hp
  simp [tldCodeChar, hp]

theorem scanAux_isSome {s : List Char} :
    ∀ (fuel i i0 : Nat), i ≤ i0 → i0 < i + fuel →
      (matchElems s emailPattern i0).isSome = true →
      ∃ p, scanAux s fuel i = some p ∧ p.1 ≤ i0 := by
  intro fuel
  induction fuel with
  | zero => intro i i0 h1 h2 _; omega
  | succ n ih =>
    intro i i0 h1 h2 hm
    rw [scanAux]
    cases hmi : matchElems s emailPattern i with
    | some j => exact ⟨(i, j), rfl, h1⟩
    | none =>
      rcases Nat.eq_or_lt_of_le h1 with rfl | hlt
      · rw [hmi] at hm; simp at hm
      · obtain ⟨p, hp, hple⟩ := ih (i + 1) i0 hlt (by omega) hm
        exact ⟨p, hp, hple⟩

theorem scanAux_correct {s : List Char} :
    ∀ (fuel i : Nat) (p : Nat × Nat), scanAux s fuel i = some p →
      i ≤ p.1 ∧ matchElems s emailPattern p.1 = some p.2 ∧
      ∀ i1, i ≤ i1 → i1 < p.1 → matchElems s emailPattern i1 = none := by
  intro fuel
  induction fuel with
  | zero => intro i p hp; simp [scanAux] at hp
  | succ n ih =>
    intro i p hp
    rw [scanAux] at hp
    cases hmi : matchElems s emailPattern i with
    | some j =>
      rw [hmi] at hp
      have hpij : p = (i, j) := (Option.some.inj hp).symm
      subst hpij
      exact ⟨Nat.le_refl i, hmi, fun i1 h1 h2 => by omega⟩
    | none =>
      rw [hmi] at hp
      obtain ⟨h1, h2, h3⟩ := ih (i + 1) p hp
      refine ⟨by omega, h2, fun i1 hi1 hi2 => ?_⟩
      rcases Nat.eq_or_lt_of_le hi1 with rfl | hlt
      · exact hmi
      · exact h3 i1 hlt hi2

theorem scanFrom_zero_isSome {s : List Char} {i0 : Nat}
    (h0 : i0 ≤ s.length) (hm : (matchElems s emailPattern i0).isSome = true) :
    ∃ p, scanFrom s 0 = some p ∧ p.1 ≤ i0 := by
  have h := scanAux_isSome (s := s) (s.length + 1) 0 i0 (by omega) (by omega) hm
  simpa [scanFrom] using h

theorem scanFrom_zero_correct {s : List Char} {p : Nat × Nat}
    (h : scanFrom s 0 = some p) :
    matchElems s emailPattern p.1 = some p.2 ∧
    ∀ i1, i1 < p.1 → matchElems s emailPattern i1 = none := by
  rw [scanFrom] at h
  obtain ⟨_, h2, h3⟩ := scanAux_correct _ _ _ h
  exact ⟨h2, fun i1 hi1 => h3 i1 (by omega) hi1⟩

theorem mem_slice_of_get? {s : List Char} {i j x : Nat} {ch : Char}
    (hx1 : i ≤ x) (hx2 : x < j) (hg : s.get? x = some ch) : ch ∈ slice s i j := by
  apply List.get?_mem (n := x - i)
  rw [slice, List.get?_eq_getElem?, List.getElem?_take, if_pos (by omega),
    List.getElem?_drop, ← List.get?_eq_getElem?, Nat.add_sub_cancel' hx1]
  exact hg

theorem mem_dropWhile_of_mem {α : Type} {p : α → Bool} {c : α} :
    ∀ {l : List α}, c ∈ l → p c = false → c ∈ l.dropWhile p := by
  intro l
  induction l with
  | nil => intro hc _; cases hc
  | cons x xs ih =>
    intro hc hp
    rw [List.dropWhile_cons]
    by_cases hpx : p x = true
    · rw [if_pos hpx]
      apply ih ?_ hp
      rcases List.mem_cons.mp hc with rfl | hmem
      · rw [hpx] at hp; cases hp
      · exact hmem
    · rw [if_neg hpx]
      exact hc

theorem mem_pyStrip_of_mem {l : List Char} {c : Char}
    (hc : c ∈ l) (hns : isStripChar c = false) : c ∈ pyStrip l := by
  rw [pyStrip, List.mem_reverse]
  apply mem_dropWhile_of_mem ?_ hns
  rw [List.mem_reverse]
  exact mem_dropWhile_of_mem hc hns

theorem pySplit_ne_nil (sep : Char) (l : List Char) : pySplit sep l ≠ [] := by
  cases l with
  | nil => simp [pySplit]
  | cons c cs =>
    rw [pySplit]
    cases pySplit sep cs with
    | nil => dsimp only; by_cases hc : c = sep <;> simp [hc]
    | cons p ps => dsimp only; by_cases hc : c = sep <;> simp [hc]

theorem two_le_pySplit_length (sep : Char) (l : List Char) (hsep : sep ∈ l) :
    2 ≤ (pySplit sep l).length := by
  induction l with
  | nil => simp at hsep
  | cons c cs ih =>
    simp only [pySplit]
    cases hr : pySplit sep cs with
    | nil => exact absurd hr (pySplit_ne_nil sep cs)
    | cons p ps =>
      by_cases hc : c = sep
      · simp [hc]
      · have hmem : sep ∈ cs := by
          rcases List.mem_cons.mp hsep with h1 | h1
          · exact absurd h1.symm hc
          · exact h1
        have h2 := ih hmem
        rw [hr] at h2
        simp only [if_neg hc]
        simpa using h2

theorem pySplit_getLast?_append_sep (sep : Char) (l : List Char) :
    (pySplit sep (l ++ [sep])).getLast? = some [] := by
  induction l with
  | nil => simp [pySplit]
  | cons c cs ih =>
    simp only [List.cons_append, pySplit]
    cases hr : pySplit sep (cs ++ [sep]) with
    | nil => exact absurd hr (pySplit_ne_nil _ _)
    | cons p ps =>
      rw [hr] at ih
      dsimp only
      by_cases hc : c = sep
      · rw [if_pos hc, List.getLast?_cons_cons]
        exact ih
      · rw [if_neg hc]
        have hlen : 2 ≤ (pySplit sep (cs ++ [sep])).length :=
          two_le_pySplit_length sep _ (by simp)
        rw [hr] at hlen
        cases ps with
        | nil => simp at hlen
        | cons q qs =>
          rw [List.getLast?_cons_cons]
          rw [List.getLast?_cons_cons] at ih
          exact ih

/-! ### Claim theorems -/

/-- C4: for a credential set of size at least two, if the rate-limit query
performed inside `check_and_switch_key` reports remaining quota below 10, the
call advances the active index by exactly one position modulo the set size and
resets the per-key request counter to 0. -/
theorem check_and_switch_key_rotates (h : GitHubApiHandler) (env : GitHubEnv)
    (_hsize : 2 ≤ h.api_keys.length)
    (hlow : get_remaining_requests env < 10) :
    (check_and_switch_key h env).current_key_index
        = (h.current_key_index + 1) % h.api_keys.length ∧
    (check_and_switch_key h env).request_count = 0 := by
  constructor <;> simp [check_and_switch_key, hlow]

theorem check_and_switch_key_rotates_witness :
    2 ≤ (GitHubApiHandler.mk ["k1", "k2", "k3"] 2 7).api_keys.length ∧
    get_remaining_requests (GitHubEnv.mk (some 5) none none) < 10 ∧
    (check_and_switch_key (GitHubApiHandler.mk ["k1", "k2", "k3"] 2 7)
        (GitHubEnv.mk (some 5) none none)).current_key_index = 0 ∧
    (check_and_switch_key (GitHubApiHandler.mk ["k1", "k2", "k3"] 2 7)
        (GitHubEnv.mk (some 5) none none)).request_count = 0 := by
  have h := check_and_switch_key_rotates (GitHubApiHandler.mk ["k1", "k2", "k3"] 2 7)
    (GitHubEnv.mk (some 5) none none) (by decide) (by decide)
  exact ⟨by decide, by decide, h.1, h.2⟩

/-- C3: a record whose `GitHub` field is empty or whose status is not exactly
`Run` produces no side effect at all: no events, and the handler state is
returned unchanged. -/
theorem process_record_skips_ineligible (h : GitHubApiHandler) (env : GitHubEnv)
    (record : AirtableRecord) (src tgt : String)
    (hskip : ¬ (getField record.fields "GitHub" ≠ ""
                ∧ getField record.fields "Status" = "Run")) :
    process_record h env record src tgt = (h, []) := by
  simp only [process_record]
  rw [if_neg hskip]

theorem process_record_skips_ineligible_witness :
    ¬ (getField [("GitHub", "https://github.com/x"), ("Status", "Done")] "GitHub" ≠ ""
       ∧ getField [("GitHub", "https://github.com/x"), ("Status", "Done")] "Status" = "Run") ∧
    process_record (GitHubApiHandler.mk ["k"] 0 0) (GitHubEnv.mk none none none)
        (AirtableRecord.mk "rec1" [("GitHub", "https://github.com/x"), ("Status", "Done")])
        "source" "target"
      = (GitHubApiHandler.mk ["k"] 0 0, []) :=
  ⟨by decide,
   process_record_skips_ineligible (GitHubApiHandler.mk ["k"] 0 0)
     (GitHubEnv.mk none none none)
     (AirtableRecord.mk "rec1" [("GitHub", "https://github.com/x"), ("Status", "Done")])
     "source" "target" (by decide)⟩

/-- C5: the lookup is two-tier in this exact order: a non-200 profile fetch
yields `none` with no README fetch; a 200 profile with a populated email field
yields that email with no README fetch; the README at
`{username}/{username}`, branch `main`, `README.md` is fetched exactly when
the profile succeeded with an unpopulated email field, and a non-200 README
fetch yields `none`. -/
theorem lookup_two_tier (h : GitHubApiHandler) (env : GitHubEnv) (u : String) :
    (env.profileResp = none →
      (get_user_info_from_github_api h env u).1 = none ∧
      (get_user_info_from_github_api h env u).2.1
        = [rate_limit_url, user_url (github_username u)]) ∧
    (∀ e, env.profileResp = some e → e ≠ "" →
      (get_user_info_from_github_api h env u).1 = some e ∧
      (get_user_info_from_github_api h env u).2.1
        = [rate_limit_url, user_url (github_username u)]) ∧
    (env.profileResp = some "" →
      (get_user_info_from_github_api h env u).2.1
        = [rate_limit_url, user_url (github_username u), readme_url (github_username u)] ∧
      (get_user_info_from_github_api h env u).1
        = (get_email_from_readme (github_username u) env).1) ∧
    (env.profileResp = some "" → env.readmeResp = none →
      (get_user_info_from_github_api h env u).1 = none) := by
  refine ⟨fun hnone => ?_, fun e hsome hne => ?_, fun hempty => ?_, fun hempty hrd => ?_⟩
  · simp [get_user_info_from_github_api, hnone]
  · simp [get_user_info_from_github_api, hsome, hne]
  · simp [get_user_info_from_github_api, hempty, get_email_from_readme]
  · simp [get_user_info_from_github_api, hempty, get_email_from_readme, hrd]

theorem lookup_two_tier_witness :
    (GitHubEnv.mk (some 100) none none).profileResp = none ∧
    (get_user_info_from_github_api (GitHubApiHandler.mk ["k"] 0 0)
        (GitHubEnv.mk (some 100) none none) "octocat").1 = none ∧
    (get_user_info_from_github_api (GitHubApiHandler.mk ["k"] 0 0)
        (GitHubEnv.mk (some 100) none none) "octocat").2.1
      = [rate_limit_url, user_url (github_username "octocat")] := by
  have h := (lookup_two_tier (GitHubApiHandler.mk ["k"] 0 0)
    (GitHubEnv.mk (some 100) none none) "octocat").1 (by decide)
  exact ⟨by decide, h.1, h.2⟩

/-- C6 (code bug): the source pattern's final character class `[A-Z|a-z]`
literally contains `|`, so on the input `a@b.|x` — which contains no substring
of the spec's canonical email shape — the extractor returns a match instead of
"no match". -/
theorem extract_email_matches_pipe_tld :
    extract_email "a@b.|x" = some "a@b.|x" ∧
    specContainsEmailShape ("a@b.|x".data) = false :=
  ⟨by decide, by decide⟩

/-- C8 counterexample: the raw README fetch is issued with the plain
module-level client, so it is not true that every outbound HTTP call of the
system goes through the bounded-retry session. -/
theorem readme_fetch_has_no_retry :
    readmeFetchClient.usesBoundedRetry = false ∧
    ¬ (∀ c ∈ outboundCallClients, c.usesBoundedRetry = true) := by
  refine ⟨rfl, fun hall => ?_⟩
  have h := hall readmeFetchClient (by simp [outboundCallClients])
  simp [readmeFetchClient, HttpClientKind.usesBoundedRetry] at h

/-- C8 (amended): only the GitHub rate-limit and profile fetches go through
the retrying session (3 retries, backoff factor 0.3, retryable statuses
500/502/504); the raw README fetch and the three Airtable operations issue
plain single requests with no retry. -/
theorem retry_only_on_github_api_calls :
    rateLimitFetchClient = HttpClientKind.retrying (requests_retry_session) ∧
    profileFetchClient = HttpClientKind.retrying (requests_retry_session) ∧
    (requests_retry_session).total = 3 ∧
    (requests_retry_session).backoff_factor_tenths = 3 ∧
    (requests_retry_session).status_forcelist = [500, 502, 504] ∧
    readmeFetchClient = HttpClientKind.plain ∧
    airtableGetClient = HttpClientKind.plain ∧
    airtablePatchClient = HttpClientKind.plain ∧
    airtableCreateClient = HttpClientKind.plain := by
  decide

/-- C10: an identifier that does not start with `https://github.com/` is used
verbatim as the username, and an identifier that starts with that string and
ends in `/` yields the empty username. -/
theorem github_username_cases (u : String) :
    (("https://github.com/".data).isPrefixOf u.data = false → github_username u = u) ∧
    (∀ l, u.data = l ++ ['/'] →
      ("https://github.com/".data).isPrefixOf u.data = true → github_username u = "") := by
  constructor
  · intro hp
    simp [github_username, hp]
  · intro l hl hp
    simp only [github_username, hp, if_pos]
    rw [hl, pySplit_getLast?_append_sep]
    rfl

/-- C7 counterexample: `a@b.cd5` contains the well-formed email substring
`a@b.cd`, yet the extractor returns "no match", because the pattern's closing
`\b` cannot sit between the letter `d` and the digit `5`. -/
theorem extract_email_misses_wf_email :
    specContainsEmailShape ("a@b.cd5".data) = true ∧
    extract_email "a@b.cd5" = none :=
  ⟨by decide, by decide⟩

/-- C7 (amended): for every input containing a well-formed email substring
that is delimited by word boundaries, the extractor returns a match rather
than "no match", and the start position the scan selects is no later than any
such boundary-delimited well-formed occurrence. -/
theorem extract_email_of_bounded_shape (s : String)
    (hs : specContainsBoundedEmail s.data = true) :
    (extract_email s).isSome = true ∧
    ∀ p, scanFrom s.data 0 = some p →
      ∀ i, (matchElems s.data specBoundedEmail i).isSome = true → p.1 ≤ i := by
  rw [specContainsBoundedEmail, List.any_eq_true] at hs
  obtain ⟨i0, hi0r, hi0⟩ := hs
  have hcode : ∀ i1, (matchElems s.data specBoundedEmail i1).isSome = true →
      (matchElems s.data emailPattern i1).isSome = true := by
    intro i1 h1
    obtain ⟨j1, hj1⟩ := Option.isSome_iff_exists.mp h1
    have hst := emailStructure_of_matchElems (specBoundedEmail_eq_emailLike ▸ hj1)
    exact emailPattern_eq_emailLike.symm ▸
      matchElems_emailLike_isSome (emailStructure_mono hst)
  have hi0len : i0 ≤ s.data.length := by
    rw [List.mem_range] at hi0r
    omega
  obtain ⟨p, hp, _⟩ := scanFrom_zero_isSome hi0len (hcode i0 hi0)
  constructor
  · rw [extract_email, findall_head, hp]
    rfl
  · intro p2 hp2 i1 hi1
    by_contra hlt
    push_neg at hlt
    have hnone := (scanFrom_zero_correct hp2).2 i1 hlt
    have hsome := hcode i1 hi1
    rw [hnone] at hsome
    cases hsome

theorem extract_email_of_bounded_shape_witness :
    specContainsBoundedEmail ("Contact: <jane@example.com>".data) = true ∧
    (extract_email "Contact: <jane@example.com>").isSome = true :=
  ⟨by decide, (extract_email_of_bounded_shape "Contact: <jane@example.com>" (by decide)).1⟩

/-- C9: whenever the extractor returns a match, the returned string is
non-empty and contains an `@` character (edge-stripping can never erase the
`@`, which is not in the stripped character set), so a found email is always
distinguishable from the empty string persisted when no email was found. -/
theorem extract_email_result_has_at (s e : String)
    (he : extract_email s = some e) : e ≠ "" ∧ '@' ∈ e.data := by
  rw [extract_email] at he
  cases hf : findall_head s.data with
  | none => rw [hf] at he; cases he
  | some m =>
    rw [hf] at he
    have hem : e = String.mk (pyStrip m) := (Option.some.inj he).symm
    rw [findall_head] at hf
    cases hscan : scanFrom s.data 0 with
    | none => rw [hscan] at hf; cases hf
    | some p =>
      rw [hscan] at hf
      have hm : m = slice s.data p.1 p.2 := (Option.some.inj hf).symm
      have hmatch := (scanFrom_zero_correct hscan).1
      have hstruct := emailStructure_of_matchElems (emailPattern_eq_emailLike ▸ hmatch)
      obtain ⟨_, _, a, k, c, _, _, _, _, hat, _, _, _, hj⟩ := hstruct
      have hmem : '@' ∈ slice s.data p.1 p.2 :=
        mem_slice_of_get? (by omega) (by omega) hat
      have hmem2 : '@' ∈ pyStrip m :=
        mem_pyStrip_of_mem (by rw [hm]; exact hmem) (by decide)
      constructor
      · intro h0
        rw [hem] at h0
        have hdata : pyStrip m = [] := congrArg String.data h0
        rw [hdata] at hmem2
        cases hmem2
      · rw [hem]
        exact hmem2

theorem extract_email_result_has_at_witness :
    extract_email "x@y.com" = some "x@y.com" ∧
    ("x@y.com" ≠ "" ∧ '@' ∈ "x@y.com".data) :=
  ⟨by decide, extract_email_result_has_at "x@y.com" "x@y.com" (by decide)⟩

/-- The full event trace of an eligible record's processing, in program
order: the `Running` claim patch, the lookup's HTTP fetches, the combined
`Scouted Email`/`Done` patch, and the conditional target-table creation. -/
theorem process_record_eligible_trace (h : GitHubApiHandler) (env : GitHubEnv)
    (record : AirtableRecord) (src tgt : String)
    (hgh : getField record.fields "GitHub" ≠ "")
    (hst : getField record.fields "Status" = "Run") :
    process_record h env record src tgt
      = ((get_user_info_from_github_api h env (getField record.fields "GitHub")).2.2,
         AirtableEvent.patchEvent src [(record.id, [("Status", "Running")])]
           :: (get_user_info_from_github_api h env
                 (getField record.fields "GitHub")).2.1.map AirtableEvent.fetchEvent
           ++ [AirtableEvent.patchEvent src
                 [(record.id,
                   [("Scouted Email",
                     if pyTruthy (get_user_info_from_github_api h env
                         (getField record.fields "GitHub")).1
                     then (get_user_info_from_github_api h env
                         (getField record.fields "GitHub")).1.getD ""
                     else ""),
                    ("Status", "Done")])]]
           ++ (if pyTruthy (get_user_info_from_github_api h env
                   (getField record.fields "GitHub")).1
               then [AirtableEvent.createEvent tgt
                 [[("Name", getField record.fields "Name"),
                   ("Github", getField record.fields "GitHub"),
                   ("Scouted Email", (get_user_info_from_github_api h env
                       (getField record.fields "GitHub")).1.getD ""),
                   ("Repo to link", getField record.fields "Repo to Link"),
                   ("Check External Hacker Github", "Update (Github Repo)")]]]
               else [])) := by
  simp only [process_record]
  rw [if_pos ⟨hgh, hst⟩]

theorem filter_isPatch_map_fetch (urls : List String) :
    (urls.map AirtableEvent.fetchEvent).filter AirtableEvent.isPatch = [] := by
  induction urls with
  | nil => rfl
  | cons u us ih => simp [List.filter_cons, AirtableEvent.isPatch, ih]

/-- C1: an eligible record's processing issues exactly two patches to the
source table — the `Running` patch first, before any HTTP fetch of the
lookup, and the combined `Scouted Email` (found email or empty string) plus
`Done` patch after all of the lookup's fetches — followed only by non-patch
events. -/
theorem process_record_two_patches (h : GitHubApiHandler) (env : GitHubEnv)
    (record : AirtableRecord) (src tgt : String)
    (hgh : getField record.fields "GitHub" ≠ "")
    (hst : getField record.fields "Status" = "Run") :
    ((process_record h env record src tgt).2.filter AirtableEvent.isPatch
      = [AirtableEvent.patchEvent src [(record.id, [("Status", "Running")])],
         AirtableEvent.patchEvent src
           [(record.id,
             [("Scouted Email",
               if pyTruthy (get_user_info_from_github_api h env
                   (getField record.fields "GitHub")).1
               then (get_user_info_from_github_api h env
                   (getField record.fields "GitHub")).1.getD ""
               else ""),
              ("Status", "Done")])]]) ∧
    ∃ rest, (process_record h env record src tgt).2
        = AirtableEvent.patchEvent src [(record.id, [("Status", "Running")])]
          :: ((get_user_info_from_github_api h env
                (getField record.fields "GitHub")).2.1.map AirtableEvent.fetchEvent
              ++ AirtableEvent.patchEvent src
                   [(record.id,
                     [("Scouted Email",
                       if pyTruthy (get_user_info_from_github_api h env
                           (getField record.fields "GitHub")).1
                       then (get_user_info_from_github_api h env
                           (getField record.fields "GitHub")).1.getD ""
                       else ""),
                      ("Status", "Done")])]
                :: rest) ∧
          ∀ x ∈ rest, AirtableEvent.isPatch x = false := by
  rw [process_record_eligible_trace h env record src tgt hgh hst]
  constructor
  · by_cases ht : pyTruthy (get_user_info_from_github_api h env
        (getField record.fields "GitHub")).1 = true
    · simp [ht, List.filter_append, List.filter_cons, AirtableEvent.isPatch,
        filter_isPatch_map_fetch]
    · simp only [Bool.not_eq_true] at ht
      simp [ht, List.filter_append, List.filter_cons, AirtableEvent.isPatch,
        filter_isPatch_map_fetch]
  · refine ⟨if pyTruthy (get_user_info_from_github_api h env
        (getField record.fields "GitHub")).1
      then [AirtableEvent.createEvent tgt
        [[("Name", getField record.fields "Name"),
          ("Github", getField record.fields "GitHub"),
          ("Scouted Email", (get_user_info_from_github_api h env
              (getField record.fields "GitHub")).1.getD ""),
          ("Repo to link", getField record.fields "Repo to Link"),
          ("Check External Hacker Github", "Update (Github Repo)")]]]
      else [], ?_, ?_⟩
    · simp [List.append_assoc]
    · by_cases ht : pyTruthy (get_user_info_from_github_api h env
          (getField record.fields "GitHub")).1 = true
      · simp [ht, AirtableEvent.isPatch]
      · simp only [Bool.not_eq_true] at ht
        simp [ht]

/-- C2: for an eligible record, a target-table record is created if and only
if the lookup returned a (Python-)truthy email, and the created record
carries the source's name, GitHub URL, scouted email, repo-link reference,
and the fixed tag value. -/
theorem process_record_creates_iff_email (h : GitHubApiHandler) (env : GitHubEnv)
    (record : AirtableRecord) (src tgt : String)
    (hgh : getField record.fields "GitHub" ≠ "")
    (hst : getField record.fields "Status" = "Run") :
    ((∃ t recs, AirtableEvent.createEvent t recs ∈ (process_record h env record src tgt).2)
      ↔ pyTruthy (get_user_info_from_github_api h env
          (getField record.fields "GitHub")).1 = true) ∧
    (pyTruthy (get_user_info_from_github_api h env
        (getField record.fields "GitHub")).1 = true →
      AirtableEvent.createEvent tgt
        [[("Name", getField record.fields "Name"),
          ("Github", getField record.fields "GitHub"),
          ("Scouted Email", (get_user_info_from_github_api h env
              (getField record.fields "GitHub")).1.getD ""),
          ("Repo to link", getField record.fields "Repo to Link"),
          ("Check External Hacker Github", "Update (Github Repo)")]]
        ∈ (process_record h env record src tgt).2) := by
  rw [process_record_eligible_trace h env record src tgt hgh hst]
  constructor
  · constructor
    · rintro ⟨t, recs, hmem⟩
      by_cases ht : pyTruthy (get_user_info_from_github_api h env
          (getField record.fields "GitHub")).1 = true
      · exact ht
      · simp only [Bool.not_eq_true] at ht
        simp [ht, List.mem_append, List.mem_map] at hmem
    · intro ht
      refine ⟨tgt,
        [[("Name", getField record.fields "Name"),
          ("Github", getField record.fields "GitHub"),
          ("Scouted Email", (get_user_info_from_github_api h env
              (getField record.fields "GitHub")).1.getD ""),
          ("Repo to link", getField record.fields "Repo to Link"),
          ("Check External Hacker Github", "Update (Github Repo)")]], ?_⟩
      simp [ht, List.mem_append]
  · intro ht
    simp [ht, List.mem_append]

theorem process_record_two_patches_witness :
    getField [("GitHub", "octocat"), ("Status", "Run"), ("Name", "Octo"),
        ("Repo to Link", "repo1")] "GitHub" ≠ "" ∧
    getField [("GitHub", "octocat"), ("Status", "Run"), ("Name", "Octo"),
        ("Repo to Link", "repo1")] "Status" = "Run" ∧
    (process_record (GitHubApiHandler.mk ["k"] 0 0)
        (GitHubEnv.mk (some 100) (some "x@y.com") none)
        (AirtableRecord.mk "r1" [("GitHub", "octocat"), ("Status", "Run"),
          ("Name", "Octo"), ("Repo to Link", "repo1")])
        "source" "target").2.filter AirtableEvent.isPatch
      = [AirtableEvent.patchEvent "source" [("r1", [("Status", "Running")])],
         AirtableEvent.patchEvent "source"
           [("r1", [("Scouted Email", "x@y.com"), ("Status", "Done")])]] :=
  ⟨by decide, by decide,
   (process_record_two_patches (GitHubApiHandler.mk ["k"] 0 0)
     (GitHubEnv.mk (some 100) (some "x@y.com") none)
     (AirtableRecord.mk "r1" [("GitHub", "octocat"), ("Status", "Run"),
       ("Name", "Octo"), ("Repo to Link", "repo1")])
     "source" "target" (by decide) (by decide)).1⟩

theorem process_record_creates_iff_email_witness :
    getField [("GitHub", "octocat"), ("Status", "Run"), ("Name", "Octo"),
        ("Repo to Link", "repo1")] "GitHub" ≠ "" ∧
    getField [("GitHub", "octocat"), ("Status", "Run"), ("Name", "Octo"),
        ("Repo to Link", "repo1")] "Status" = "Run" ∧
    AirtableEvent.createEvent "target"
        [[("Name", "Octo"),
          ("Github", "octocat"),
          ("Scouted Email", "x@y.com"),
          ("Repo to link", "repo1"),
          ("Check External Hacker Github", "Update (Github Repo)")]]
      ∈ (process_record (GitHubApiHandler.mk ["k"] 0 0)
          (GitHubEnv.mk (some 100) (some "x@y.com") none)
          (AirtableRecord.mk "r1" [("GitHub", "octocat"), ("Status", "Run"),
            ("Name", "Octo"), ("Repo to Link", "repo1")])
          "source" "target").2 :=
  ⟨by decide, by decide,
   (process_record_creates_iff_email (GitHubApiHandler.mk ["k"] 0 0)
     (GitHubEnv.mk (some 100) (some "x@y.com") none)
     (AirtableRecord.mk "r1" [("GitHub", "octocat"), ("Status", "Run"),
       ("Name", "Octo"), ("Repo to Link", "repo1")])
     "source" "target" (by decide) (by decide)).2 (by decide)⟩

theorem github_username_cases_witness :
    ("https://github.com/".data).isPrefixOf ("github.com/octocat".data) = false ∧
    github_username "github.com/octocat" = "github.com/octocat" ∧
    ("https://github.com/".data).isPrefixOf ("https://github.com/".data) = true ∧
    github_username "https://github.com/" = "" :=
  ⟨by decide,
   (github_username_cases "github.com/octocat").1 (by decide),
   by decide,
   (github_username_cases "https://github.com/").2 ("https://github.com".data)
     (by decide) (by decide)⟩

end Scout
